import Mathlib

/-!
Shallow embedding of the automation-scheduler core of the
`hytale_server_manager` repository, specifically the `TaskGroupService`
class (source file `src/unnamed/part_002`): the group-execution
orchestrator (`executeGroup`), the schedule registry
(`scheduleGroup` / `updateGroup` / `deleteGroup` / `cleanup`) and the
CRUD entry point `createGroup`.

Effectful TypeScript is modelled by explicit state passing:
  * the Prisma store becomes a `SystemState` record holding the stored
    groups and execution records;
  * the node-cron registry (`scheduledGroups : Map<string, ScheduledTask>`)
    becomes an association list from group id to a timer handle (a `Nat`
    drawn from a fresh counter), together with the list of handles that
    have been stopped;
  * the external action executor (`schedulerService.executeTask`, which
    either resolves or throws) becomes an oracle
    `Executor : TaskWithServer → Except String Unit`;
  * thrown JavaScript errors become `Except.error`;
  * wall-clock suspensions (`await this.delay(...)`) are counted in the
    loop state (`delays` counts the suspensions, each of
    `delayBetweenTasks` seconds);
  * `Date` timestamps are not modelled.
-/

namespace HSM

/-- Task row joined with its server, as selected by `getGroupWithTasks`
(`TaskWithServer` interface, part_002 lines 6-15; the server join is
flattened to its `name`). -/
structure TaskWithServer where
  id : String
  name : String
  type : String
  serverId : String
  enabled : Bool
  cronExpression : String
  taskData : Option String
  serverName : String
  deriving Repr, DecidableEq

/-- Group membership row joined with its task (part_002 lines 17-19). -/
structure TaskGroupMemberWithTask where
  sortOrder : Int
  task : TaskWithServer
  deriving Repr, DecidableEq

/-- Stored task-group row. `failureMode` is the raw string column
(`'stop'` or `'continue'`), compared against `'stop'` exactly as the
source does; the `lastRun` timestamp is not modelled. -/
structure TaskGroup where
  id : String
  name : String
  description : Option String
  cronExpression : String
  failureMode : String
  delayBetweenTasks : Nat
  enabled : Bool
  lastStatus : Option String
  lastError : Option String
  deriving Repr, DecidableEq

/-- A group together with its memberships, as returned by
`getGroupWithTasks` (part_002 lines 21-23, 407-423). -/
structure TaskGroupWithMembers where
  group : TaskGroup
  taskMemberships : List TaskGroupMemberWithTask
  deriving Repr, DecidableEq

/-- Per-member outcome status, the union type of `TaskResult.status`
(part_002 line 30). -/
inductive TaskStatus where
  | success
  | failed
  | skipped
  deriving Repr, DecidableEq

/-- Per-member outcome record (`TaskResult` interface, part_002 lines
25-34; the `startedAt` / `completedAt` dates are not modelled). -/
structure TaskResult where
  taskId : String
  taskName : String
  serverId : String
  serverName : String
  status : TaskStatus
  error : Option String
  deriving Repr, DecidableEq

/-- One row of the `taskGroupExecution` table. The `finalized` flag
models whether `completedAt` has been set by the finalizing update
(part_002 lines 110-116 create it unfinalized, lines 207-218 finalize). -/
structure TaskGroupExecution where
  id : Nat
  groupId : String
  tasksTotal : Nat
  status : String
  tasksCompleted : Nat
  tasksFailed : Nat
  tasksSkipped : Nat
  taskResults : List TaskResult
  errorMessage : Option String
  finalized : Bool
  deriving Repr, DecidableEq

/-- The external action executor (`schedulerService.executeTask`):
it either resolves (`.ok`) or throws with a message (`.error`). -/
def Executor : Type := TaskWithServer → Except String Unit

/-- Modelled from the spec: the external cron validator `cron.validate`
of the node-cron dependency is not part of the repository; spec section
4.1 states it rejects expressions that do not decompose into exactly
five whitespace-separated fields. `fieldCount` counts maximal runs of
non-space characters. -/
def fieldCount : List Char → Bool → Nat
  | [], _ => 0
  | c :: rest, inField =>
    if c = ' ' then fieldCount rest false
    else (if inField then 0 else 1) + fieldCount rest true

/-- Modelled from the spec: `cron.validate` accepts exactly the
expressions with five whitespace-separated fields. -/
def cronValidate (expr : String) : Bool :=
  fieldCount expr.toList false == 5

/-! ### The member loop of `executeGroup` (part_002 lines 118-190) -/

/-- State of the `for` loop of `executeGroup`: the `failed` flag
(line 119), the accumulated `results` (line 118), plus two observers of
the loop's effects: the ids of tasks for which the executor was invoked
(line 161) and the number of `delay` suspensions performed (line 188). -/
structure LoopState where
  failed : Bool
  results : List TaskResult
  invoked : List String
  delays : Nat
  deriving Repr, DecidableEq

/-- Loop state at entry of the loop (part_002 lines 118-119). -/
def initLoopState : LoopState :=
  { failed := false, results := [], invoked := [], delays := 0 }

/-- A `skipped` result row as pushed at part_002 lines 130-139 and
145-154. -/
def skippedResult (m : TaskGroupMemberWithTask) (msg : String) : TaskResult :=
  { taskId := m.task.id, taskName := m.task.name, serverId := m.task.serverId,
    serverName := m.task.serverName, status := .skipped, error := some msg }

/-- A `success` result row as pushed at part_002 lines 162-170. -/
def successResult (m : TaskGroupMemberWithTask) : TaskResult :=
  { taskId := m.task.id, taskName := m.task.name, serverId := m.task.serverId,
    serverName := m.task.serverName, status := .success, error := none }

/-- A `failed` result row as pushed at part_002 lines 173-182. -/
def failedResult (m : TaskGroupMemberWithTask) (e : String) : TaskResult :=
  { taskId := m.task.id, taskName := m.task.name, serverId := m.task.serverId,
    serverName := m.task.serverName, status := .failed, error := some e }

/-- One iteration of the member loop (part_002 lines 124-190).
`isLast` tells whether `i = sortedTasks.length - 1`; note that the two
`continue` branches (disabled task, skip after failure) bypass the
delay at lines 185-189, so only the executed branch can suspend. -/
def processMember (ex : Executor) (g : TaskGroup) (st : LoopState)
    (m : TaskGroupMemberWithTask) (isLast : Bool) : LoopState :=
  if m.task.enabled = false then
    { st with results := st.results ++ [skippedResult m "Task is disabled"] }
  else if st.failed && g.failureMode == "stop" then
    { st with results := st.results ++ [skippedResult m "Skipped due to previous task failure"] }
  else
    let st1 :=
      match ex m.task with
      | .ok _ =>
        { st with invoked := st.invoked ++ [m.task.id],
                  results := st.results ++ [successResult m] }
      | .error e =>
        { st with invoked := st.invoked ++ [m.task.id],
                  results := st.results ++ [failedResult m e],
                  failed := true }
    if isLast = false ∧ 0 < g.delayBetweenTasks then
      { st1 with delays := st1.delays + 1 }
    else
      st1

/-- The member loop itself: `for (let i = 0; i < sortedTasks.length; i++)`
(part_002 line 124), processing members in order; the current member is
last exactly when the remaining list is empty. -/
def runLoop (ex : Executor) (g : TaskGroup) :
    LoopState → List TaskGroupMemberWithTask → LoopState
  | st, [] => st
  | st, m :: rest => runLoop ex g (processMember ex g st m rest.isEmpty) rest

/-- Insertion into a list already sorted by ascending `sortOrder`. -/
def insertMember (m : TaskGroupMemberWithTask) :
    List TaskGroupMemberWithTask → List TaskGroupMemberWithTask
  | [] => [m]
  | x :: xs =>
    if m.sortOrder < x.sortOrder then m :: x :: xs else x :: insertMember m xs

/-- The `sort((a, b) => a.sortOrder - b.sortOrder)` at part_002 line 122:
ascending order on `sortOrder`. -/
def sortMembers : List TaskGroupMemberWithTask → List TaskGroupMemberWithTask
  | [] => []
  | m :: ms => insertMember m (sortMembers ms)

/-- Final-status computation of part_002 lines 197-204. -/
def finalStatus (completed failedCount skippedCount : Nat) : String :=
  if failedCount = 0 ∧ skippedCount = 0 then "success"
  else if completed = 0 then "failed"
  else "partial"

/-- The filter at part_002 line 193. -/
def countSuccess (rs : List TaskResult) : Nat :=
  (rs.filter (fun r => r.status == TaskStatus.success)).length

/-- The filter at part_002 line 194. -/
def countFailed (rs : List TaskResult) : Nat :=
  (rs.filter (fun r => r.status == TaskStatus.failed)).length

/-- The filter at part_002 line 195. -/
def countSkipped (rs : List TaskResult) : Nat :=
  (rs.filter (fun r => r.status == TaskStatus.skipped)).length

/-! ### Registry and store state -/

/-- The in-memory schedule registry: `scheduledGroups` is an association
list from group id to a live timer handle; timers that have been
`.stop()`ped are collected in `stopped`; `nextTimer` is the fresh-handle
counter standing for `cron.schedule` allocating a new `ScheduledTask`. -/
structure Registry where
  live : List (String × Nat)
  stopped : List Nat
  nextTimer : Nat
  deriving Repr, DecidableEq

/-- The `has`/`get.stop()`/`delete` sequence of part_002 lines 81-84
(also lines 309-312 and 323-326): stop and remove the live timer for a
group id, if any. -/
def stopTimer (groupId : String) (reg : Registry) : Registry :=
  match reg.live.lookup groupId with
  | some t =>
    { reg with live := reg.live.filter (fun p => p.1 != groupId),
               stopped := reg.stopped ++ [t] }
  | none => reg

/-- The `scheduleGroup` method (part_002 lines 74-96). The source logs
an error and returns when the cron expression is invalid; the returned
`Option String` is that logged error (`none` means the group was
scheduled). -/
def scheduleGroup (g : TaskGroup) (reg : Registry) : Registry × Option String :=
  if cronValidate g.cronExpression = false then
    (reg, some ("Invalid cron expression for task group " ++ g.name ++ ": " ++ g.cronExpression))
  else
    let reg1 := stopTimer g.id reg
    ({ reg1 with live := reg1.live ++ [(g.id, reg1.nextTimer)],
                 nextTimer := reg1.nextTimer + 1 },
     none)

/-- The `cleanup` method (part_002 lines 464-472): stop every live timer
and clear the map. -/
def cleanup (reg : Registry) : Registry :=
  { reg with stopped := reg.stopped ++ reg.live.map (fun p => p.2),
             live := [] }

/-- Whole-system state: the stored groups (with memberships and the
joined tasks), the execution-history table with its id counter, the
registry, and a counter from which Prisma-generated group ids are
drawn. -/
structure SystemState where
  groups : List TaskGroupWithMembers
  executions : List TaskGroupExecution
  nextExec : Nat
  reg : Registry
  nextGroupNum : Nat
  deriving Repr, DecidableEq

/-- `prisma.taskGroup.findUnique({ where: { id } })` with the membership
include (part_002 lines 407-423). -/
def findGroup (groupId : String) (gs : List TaskGroupWithMembers) :
    Option TaskGroupWithMembers :=
  gs.find? (fun g => g.group.id == groupId)

/-- `prisma.taskGroupExecution.update` (part_002 lines 207-218): replace
the record with the given id. -/
def updateExecution (execId : Nat) (newRec : TaskGroupExecution)
    (l : List TaskGroupExecution) : List TaskGroupExecution :=
  l.map (fun r => if r.id == execId then newRec else r)

/-- `prisma.taskGroup.update` of the last-run summary (part_002 lines
221-228; `lastRun` date not modelled). -/
def updateGroupStatus (groupId : String) (status : String) (err : Option String)
    (gs : List TaskGroupWithMembers) : List TaskGroupWithMembers :=
  gs.map (fun g =>
    if g.group.id == groupId then
      { g with group := { g.group with lastStatus := some status, lastError := err } }
    else g)

/-- The `executeGroup` method (part_002 lines 101-232), with the store
threaded explicitly. A missing group throws (line 104) before any record
is created; otherwise a `running` record is created, the member loop
runs over the members sorted by `sortOrder`, and the record is finalized
from the result counts. -/
def executeGroup (ex : Executor) (st : SystemState) (groupId : String) :
    SystemState × Except String TaskGroupExecution :=
  match findGroup groupId st.groups with
  | none => (st, .error ("Task group " ++ groupId ++ " not found"))
  | some g =>
    let execution : TaskGroupExecution :=
      { id := st.nextExec, groupId := groupId,
        tasksTotal := g.taskMemberships.length, status := "running",
        tasksCompleted := 0, tasksFailed := 0, tasksSkipped := 0,
        taskResults := [], errorMessage := none, finalized := false }
    let st1 : SystemState :=
      { st with executions := st.executions ++ [execution],
                nextExec := st.nextExec + 1 }
    let sortedTasks := sortMembers g.taskMemberships
    let fin := runLoop ex g.group initLoopState sortedTasks
    let completed := countSuccess fin.results
    let failedCount := countFailed fin.results
    let skippedCount := countSkipped fin.results
    let status := finalStatus completed failedCount skippedCount
    let errMsg : Option String :=
      if 0 < failedCount then some (toString failedCount ++ " task(s) failed") else none
    let updated : TaskGroupExecution :=
      { execution with
        status := status, tasksCompleted := completed,
        tasksFailed := failedCount, tasksSkipped := skippedCount,
        taskResults := fin.results, errorMessage := errMsg, finalized := true }
    let st2 : SystemState :=
      { st1 with executions := updateExecution execution.id updated st1.executions }
    let st3 : SystemState :=
      { st2 with groups := updateGroupStatus groupId status errMsg st2.groups }
    (st3, .ok updated)

/-! ### CRUD operations (part_002 lines 245-340) -/

/-- Argument record of `createGroup` (part_002 lines 245-253). The
source takes `taskIds : string[]` and resolves each id against the task
table when adding memberships; here the resolved tasks are passed
directly (`memberTasks`), standing for the `taskIds` after the foreign
keys are resolved. -/
structure CreateGroupData where
  name : String
  description : Option String
  cronExpression : String
  failureMode : Option String
  delayBetweenTasks : Option Nat
  enabled : Option Bool
  memberTasks : List TaskWithServer
  deriving Repr

/-- The Prisma-generated id of the next created group. -/
def freshGroupId (st : SystemState) : String :=
  "group-" ++ toString st.nextGroupNum

/-- The group row persisted by `createGroup` (part_002 lines 258-267),
with the source defaults applied: `failureMode || 'stop'`,
`delayBetweenTasks || 0`, `enabled !== false`. -/
def createdGroup (data : CreateGroupData) (st : SystemState) : TaskGroup :=
  { id := freshGroupId st, name := data.name, description := data.description,
    cronExpression := data.cronExpression,
    failureMode := data.failureMode.getD "stop",
    delayBetweenTasks := data.delayBetweenTasks.getD 0,
    enabled := data.enabled != some false,
    lastStatus := none, lastError := none }

/-- The `createGroup` method (part_002 lines 245-282): validate the cron
expression (throwing on failure), persist the group with the defaults
of `createdGroup`, add one membership per given task at ascending
sort positions 0, 1, ..., and schedule the group when it is enabled. -/
def createGroup (data : CreateGroupData) (st : SystemState) :
    SystemState × Except String TaskGroup :=
  if cronValidate data.cronExpression = false then
    (st, .error ("Invalid cron expression: " ++ data.cronExpression))
  else
    let group : TaskGroup := createdGroup data st
    let memberships : List TaskGroupMemberWithTask :=
      data.memberTasks.enum.map (fun p => { sortOrder := (p.1 : Int), task := p.2 })
    let st1 : SystemState :=
      { st with groups := st.groups ++ [{ group := group, taskMemberships := memberships }],
                nextGroupNum := st.nextGroupNum + 1 }
    let st2 : SystemState :=
      if group.enabled then { st1 with reg := (scheduleGroup group st1.reg).1 } else st1
    (st2, .ok group)

/-- Argument record of `updateGroup` (part_002 lines 287-294): a partial
update, `none` meaning the field is absent. -/
structure UpdateGroupData where
  name : Option String
  description : Option String
  cronExpression : Option String
  failureMode : Option String
  delayBetweenTasks : Option Nat
  enabled : Option Bool
  deriving Repr

/-- Application of a Prisma partial update to a stored group row. -/
def applyUpdate (g : TaskGroup) (d : UpdateGroupData) : TaskGroup :=
  { g with
    name := d.name.getD g.name,
    description := match d.description with | some s => some s | none => g.description,
    cronExpression := d.cronExpression.getD g.cronExpression,
    failureMode := d.failureMode.getD g.failureMode,
    delayBetweenTasks := d.delayBetweenTasks.getD g.delayBetweenTasks,
    enabled := d.enabled.getD g.enabled }

/-- Replace a stored group row, keeping its memberships. -/
def replaceGroup (groupId : String) (g' : TaskGroup)
    (gs : List TaskGroupWithMembers) : List TaskGroupWithMembers :=
  gs.map (fun g => if g.group.id == groupId then { g with group := g' } else g)

/-- The `updateGroup` method (part_002 lines 287-316): validate a
present, non-empty cron expression (`data.cronExpression && !validate`
throws), apply the partial update (Prisma throws when the row is
missing), then reschedule when the result is enabled or stop the timer
when it is disabled. -/
def updateGroup (groupId : String) (data : UpdateGroupData) (st : SystemState) :
    SystemState × Except String TaskGroup :=
  if (match data.cronExpression with
      | some e => (e != "") && !(cronValidate e)
      | none => false) = true then
    (st, .error ("Invalid cron expression: " ++ (data.cronExpression.getD "")))
  else
    match findGroup groupId st.groups with
    | none => (st, .error "Record to update not found")
    | some gw =>
      let g' := applyUpdate gw.group data
      let st1 : SystemState := { st with groups := replaceGroup groupId g' st.groups }
      let st2 : SystemState :=
        if g'.enabled then { st1 with reg := (scheduleGroup g' st1.reg).1 }
        else { st1 with reg := stopTimer groupId st1.reg }
      (st2, .ok g')

/-- The `deleteGroup` method (part_002 lines 321-333): stop the timer
first, then delete the row (Prisma throws when the row is missing, but
the timer is already stopped by then). -/
def deleteGroup (groupId : String) (st : SystemState) :
    SystemState × Except String Unit :=
  let st1 : SystemState := { st with reg := stopTimer groupId st.reg }
  match findGroup groupId st1.groups with
  | none => (st1, .error "Record to delete does not exist")
  | some _ =>
    ({ st1 with groups := st1.groups.filter (fun g => g.group.id != groupId) }, .ok ())

/-! ### Characterizations of the member loop, used by the proofs -/

/-- Whether the loop iteration for `m`, entered with failure flag `fl`,
reaches the executor call (neither `continue` branch taken). -/
def willExecute (g : TaskGroup) (fl : Bool) (m : TaskGroupMemberWithTask) : Bool :=
  m.task.enabled && !(fl && g.failureMode == "stop")

/-- The single result row pushed by the loop iteration for `m`. -/
def memberResult (ex : Executor) (g : TaskGroup) (fl : Bool)
    (m : TaskGroupMemberWithTask) : TaskResult :=
  if m.task.enabled = false then skippedResult m "Task is disabled"
  else if fl && g.failureMode == "stop" then
    skippedResult m "Skipped due to previous task failure"
  else
    match ex m.task with
    | .ok _ => successResult m
    | .error e => failedResult m e

/-- The failure flag after the loop iteration for `m`. -/
def stepFailed (ex : Executor) (g : TaskGroup) (fl : Bool)
    (m : TaskGroupMemberWithTask) : Bool :=
  if m.task.enabled = false then fl
  else if fl && g.failureMode == "stop" then fl
  else
    match ex m.task with
    | .ok _ => fl
    | .error _ => true

/-- Results produced by the loop over `ms` from failure flag `fl`. -/
def resultsOf (ex : Executor) (g : TaskGroup) :
    Bool → List TaskGroupMemberWithTask → List TaskResult
  | _, [] => []
  | fl, m :: rest => memberResult ex g fl m :: resultsOf ex g (stepFailed ex g fl m) rest

/-- Failure flag after the loop over `ms` from failure flag `fl`. -/
def failedOf (ex : Executor) (g : TaskGroup) :
    Bool → List TaskGroupMemberWithTask → Bool
  | fl, [] => fl
  | fl, m :: rest => failedOf ex g (stepFailed ex g fl m) rest

/-- Ids of the tasks for which the executor is invoked by the loop over
`ms` from failure flag `fl`. -/
def invokedOf (ex : Executor) (g : TaskGroup) :
    Bool → List TaskGroupMemberWithTask → List String
  | _, [] => []
  | fl, m :: rest =>
    (if willExecute g fl m then [m.task.id] else [])
      ++ invokedOf ex g (stepFailed ex g fl m) rest

/-- Number of delay suspensions performed by the loop over `ms` from
failure flag `fl` (a member suspends exactly when it reached the
executor call, is not in last position, and the group delay is
positive). -/
def delaysOf (ex : Executor) (g : TaskGroup) :
    Bool → List TaskGroupMemberWithTask → Nat
  | _, [] => 0
  | fl, m :: rest =>
    (if willExecute g fl m ∧ rest.isEmpty = false ∧ 0 < g.delayBetweenTasks then 1 else 0)
      + delaysOf ex g (stepFailed ex g fl m) rest

/-- Whether a result row corresponds to a member for which the executor
was invoked (recorded `success` or `failed`, as opposed to `skipped`). -/
def isExecStatus (r : TaskResult) : Bool :=
  r.status == TaskStatus.success || r.status == TaskStatus.failed

/-- Well-formedness of the registry: at most one live timer per group id
(the `Map` keys are unique), timer handles are pairwise distinct, and
every live handle was drawn from the fresh counter. -/
def RegWF (reg : Registry) : Prop :=
  (reg.live.map Prod.fst).Nodup ∧
  (reg.live.map Prod.snd).Nodup ∧
  ∀ p ∈ reg.live, p.2 < reg.nextTimer

/-- Well-formedness of the execution table: every stored record id was
drawn from the fresh counter. -/
def ExecWF (st : SystemState) : Prop :=
  ∀ r ∈ st.executions, r.id < st.nextExec

/-- The `running` record created at part_002 lines 110-116. -/
def runningRecord (st : SystemState) (gid : String) (gw : TaskGroupWithMembers) :
    TaskGroupExecution :=
  { id := st.nextExec, groupId := gid, tasksTotal := gw.taskMemberships.length,
    status := "running", tasksCompleted := 0, tasksFailed := 0, tasksSkipped := 0,
    taskResults := [], errorMessage := none, finalized := false }

/-- The results produced by one run of the member loop over the sorted
memberships of `gw`. -/
def runResults (ex : Executor) (gw : TaskGroupWithMembers) : List TaskResult :=
  (runLoop ex gw.group initLoopState (sortMembers gw.taskMemberships)).results

/-- The finalized record returned by `executeGroup` for a found group. -/
def finalRecord (ex : Executor) (st : SystemState) (gid : String)
    (gw : TaskGroupWithMembers) : TaskGroupExecution :=
  { id := st.nextExec, groupId := gid, tasksTotal := gw.taskMemberships.length,
    status := finalStatus (countSuccess (runResults ex gw)) (countFailed (runResults ex gw))
                (countSkipped (runResults ex gw)),
    tasksCompleted := countSuccess (runResults ex gw),
    tasksFailed := countFailed (runResults ex gw),
    tasksSkipped := countSkipped (runResults ex gw),
    taskResults := runResults ex gw,
    errorMessage :=
      if 0 < countFailed (runResults ex gw) then
        some (toString (countFailed (runResults ex gw)) ++ " task(s) failed")
      else none,
    finalized := true }

/-! ### Concrete fixtures used by witnesses and counterexamples -/

/-- An executor that always succeeds. -/
def exOk : Executor := fun _ => .ok ()

/-- An executor that throws exactly for the task with id `t2`. -/
def exFailT2 : Executor := fun t => if t.id == "t2" then .error "boom" else .ok ()

/-- A task fixture. -/
def mkTask (id : String) (en : Bool) : TaskWithServer :=
  { id := id, name := id, type := "command", serverId := "s1", enabled := en,
    cronExpression := "* * * * *", taskData := none, serverName := "srv" }

/-- A membership fixture. -/
def mkMember (n : Int) (t : TaskWithServer) : TaskGroupMemberWithTask :=
  { sortOrder := n, task := t }

/-- A `stop`-mode group fixture. -/
def gStop : TaskGroup :=
  { id := "g1", name := "G1", description := none, cronExpression := "* * * * *",
    failureMode := "stop", delayBetweenTasks := 0, enabled := true,
    lastStatus := none, lastError := none }

/-- A `continue`-mode group fixture. -/
def gCont : TaskGroup := { gStop with id := "g2", failureMode := "continue" }

/-- A group fixture with a positive inter-task delay. -/
def gDelay : TaskGroup := { gStop with id := "g3", delayBetweenTasks := 5 }

/-- Four enabled members at positions 1-4. -/
def ms4 : List TaskGroupMemberWithTask :=
  [mkMember 1 (mkTask "t1" true), mkMember 2 (mkTask "t2" true),
   mkMember 3 (mkTask "t3" true), mkMember 4 (mkTask "t4" true)]

/-- Store holding the `stop`-mode group `g1` with the four members. -/
def stStop4 : SystemState :=
  { groups := [{ group := gStop, taskMemberships := ms4 }], executions := [],
    nextExec := 0, reg := { live := [], stopped := [], nextTimer := 0 },
    nextGroupNum := 0 }

/-- A group fixture whose single member is disabled. -/
def gD : TaskGroup := { gStop with id := "gD" }

/-- Store holding `gD` with one disabled member. -/
def stDisabled : SystemState :=
  { groups := [{ group := gD, taskMemberships := [mkMember 1 (mkTask "d1" false)] }],
    executions := [], nextExec := 0,
    reg := { live := [], stopped := [], nextTimer := 0 }, nextGroupNum := 0 }

/-- Members for the delay counterexample: a disabled member in first
position followed by an enabled one. -/
def msSkipFirst : List TaskGroupMemberWithTask :=
  [mkMember 1 (mkTask "c1" false), mkMember 2 (mkTask "c2" true)]

/-- Three enabled members at positions 1-3. -/
def ms3 : List TaskGroupMemberWithTask :=
  [mkMember 1 (mkTask "e1" true), mkMember 2 (mkTask "e2" true),
   mkMember 3 (mkTask "e3" true)]

/-- A registry fixture with one live timer for `g1`. -/
def reg1 : Registry := { live := [("g1", 0)], stopped := [], nextTimer := 1 }

/-- Store holding the `stop`-mode group `g1`, with its timer armed. -/
def stRegistered : SystemState :=
  { groups := [{ group := gStop, taskMemberships := ms4 }], executions := [],
    nextExec := 0, reg := reg1, nextGroupNum := 0 }

/-- Update payload that only disables a group. -/
def updDisable : UpdateGroupData :=
  { name := none, description := none, cronExpression := none,
    failureMode := none, delayBetweenTasks := none, enabled := some false }

/-- Creation payload leaving all optional fields absent. -/
def dataDefaults : CreateGroupData :=
  { name := "N", description := none, cronExpression := "* * * * *",
    failureMode := none, delayBetweenTasks := none, enabled := none,
    memberTasks := [] }

/-- Creation payload that passes `enabled = false` explicitly. -/
def dataDisabled : CreateGroupData :=
  { dataDefaults with enabled := some false }

/-- Creation payload with a malformed cron expression. -/
def dataBadCron : CreateGroupData :=
  { dataDefaults with cronExpression := "not a cron" }

/-- Update payload with a malformed cron expression. -/
def updBadCron : UpdateGroupData :=
  { updDisable with enabled := none, cronExpression := some "not a cron" }

/-- A group fixture with a malformed cron expression. -/
def gBadCron : TaskGroup := { gStop with id := "gB", cronExpression := "not a cron" }

/-- The empty system state. -/
def stEmpty : SystemState :=
  { groups := [], executions := [], nextExec := 0,
    reg := { live := [], stopped := [], nextTimer := 0 }, nextGroupNum := 0 }

/-- The stored row of `g1` with its four members. -/
def gwStop4 : TaskGroupWithMembers := { group := gStop, taskMemberships := ms4 }

/-- A loop state in which a failure has already been recorded. -/
def lsFailed : LoopState := { failed := true, results := [], invoked := [], delays := 0 }

/-! ### Bridging lemmas between the loop and its characterization -/

theorem processMember_eq (ex : Executor) (g : TaskGroup) (st : LoopState)
    (m : TaskGroupMemberWithTask) (b : Bool) :
    processMember ex g st m b =
      { failed := stepFailed ex g st.failed m,
        results := st.results ++ [memberResult ex g st.failed m],
        invoked := st.invoked ++ (if willExecute g st.failed m then [m.task.id] else []),
        delays := st.delays +
          (if willExecute g st.failed m ∧ b = false ∧ 0 < g.delayBetweenTasks
           then 1 else 0) } := by
  cases hen : m.task.enabled <;>
    cases hfl : st.failed <;>
      cases hmode : g.failureMode == "stop" <;>
        cases hex : ex m.task <;>
          cases b <;>
            by_cases hd : 0 < g.delayBetweenTasks <;>
              simp [processMember, stepFailed, memberResult, willExecute,
                    hen, hfl, hmode, hex, hd]

theorem runLoop_eq (ex : Executor) (g : TaskGroup) :
    ∀ (ms : List TaskGroupMemberWithTask) (st : LoopState),
    runLoop ex g st ms =
      { failed := failedOf ex g st.failed ms,
        results := st.results ++ resultsOf ex g st.failed ms,
        invoked := st.invoked ++ invokedOf ex g st.failed ms,
        delays := st.delays + delaysOf ex g st.failed ms }
  | [], st => by
    simp [runLoop, failedOf, resultsOf, invokedOf, delaysOf]
  | m :: rest, st => by
    rw [runLoop, runLoop_eq ex g rest, processMember_eq]
    simp [failedOf, resultsOf, invokedOf, delaysOf, List.append_assoc, Nat.add_assoc]

theorem memberResult_taskId (ex : Executor) (g : TaskGroup) (fl : Bool)
    (m : TaskGroupMemberWithTask) : (memberResult ex g fl m).taskId = m.task.id := by
  cases hen : m.task.enabled <;>
    cases hfl : fl <;>
      cases hmode : g.failureMode == "stop" <;>
        cases hex : ex m.task <;>
          simp [memberResult, skippedResult, successResult, failedResult,
                hen, hfl, hmode, hex]

theorem resultsOf_length (ex : Executor) (g : TaskGroup) :
    ∀ (fl : Bool) (ms : List TaskGroupMemberWithTask),
    (resultsOf ex g fl ms).length = ms.length
  | _, [] => rfl
  | fl, m :: rest => by
    simp [resultsOf, resultsOf_length ex g (stepFailed ex g fl m) rest]

theorem resultsOf_map_taskId (ex : Executor) (g : TaskGroup) :
    ∀ (fl : Bool) (ms : List TaskGroupMemberWithTask),
    (resultsOf ex g fl ms).map (fun r => r.taskId) = ms.map (fun m => m.task.id)
  | _, [] => rfl
  | fl, m :: rest => by
    simp [resultsOf, memberResult_taskId,
          resultsOf_map_taskId ex g (stepFailed ex g fl m) rest]

theorem resultsOf_append (ex : Executor) (g : TaskGroup) :
    ∀ (fl : Bool) (l₁ l₂ : List TaskGroupMemberWithTask),
    resultsOf ex g fl (l₁ ++ l₂) =
      resultsOf ex g fl l₁ ++ resultsOf ex g (failedOf ex g fl l₁) l₂
  | fl, [], l₂ => by simp [resultsOf, failedOf]
  | fl, m :: rest, l₂ => by
    simp [resultsOf, failedOf, resultsOf_append ex g (stepFailed ex g fl m) rest l₂]

theorem count_partition (rs : List TaskResult) :
    countSuccess rs + countFailed rs + countSkipped rs = rs.length := by
  induction rs with
  | nil => rfl
  | cons r rest ih =>
    cases hs : r.status <;>
      simp [countSuccess, countFailed, countSkipped, List.filter_cons, hs] at ih ⊢ <;>
        omega

theorem countSuccess_of_all_skipped (rs : List TaskResult)
    (h : ∀ r ∈ rs, r.status = TaskStatus.skipped) : countSuccess rs = 0 := by
  unfold countSuccess
  rw [List.length_eq_zero]
  rw [List.filter_eq_nil_iff]
  intro r hr
  rw [h r hr]
  decide

theorem countSkipped_of_all_skipped (rs : List TaskResult)
    (h : ∀ r ∈ rs, r.status = TaskStatus.skipped) : countSkipped rs = rs.length := by
  unfold countSkipped
  have hfix : rs.filter (fun r => r.status == TaskStatus.skipped) = rs := by
    rw [List.filter_eq_self]
    intro r hr
    rw [h r hr]
    decide
  rw [hfix]

theorem insertMember_perm (m : TaskGroupMemberWithTask) :
    ∀ l : List TaskGroupMemberWithTask, (insertMember m l).Perm (m :: l)
  | [] => List.Perm.refl _
  | x :: xs => by
    unfold insertMember
    split
    · exact List.Perm.refl _
    · exact ((insertMember_perm m xs).cons x).trans (List.Perm.swap m x xs)

theorem sortMembers_perm :
    ∀ ms : List TaskGroupMemberWithTask, (sortMembers ms).Perm ms
  | [] => List.Perm.refl _
  | m :: rest => by
    unfold sortMembers
    exact (insertMember_perm m (sortMembers rest)).trans ((sortMembers_perm rest).cons m)

theorem mem_insertMember {b m : TaskGroupMemberWithTask}
    {l : List TaskGroupMemberWithTask} (h : b ∈ insertMember m l) :
    b = m ∨ b ∈ l := by
  have := (insertMember_perm m l).mem_iff.mp h
  simpa using this

theorem insertMember_sorted (m : TaskGroupMemberWithTask) :
    ∀ {l : List TaskGroupMemberWithTask},
    l.Sorted (fun a b => a.sortOrder ≤ b.sortOrder) →
    (insertMember m l).Sorted (fun a b => a.sortOrder ≤ b.sortOrder)
  | [], _ => List.sorted_singleton m
  | x :: xs, h => by
    rw [List.sorted_cons] at h
    unfold insertMember
    split
    · rename_i hlt
      rw [List.sorted_cons]
      constructor
      · intro b hb
        rw [List.mem_cons] at hb
        rcases hb with rfl | hb
        · omega
        · have := h.1 b hb
          omega
      · rw [List.sorted_cons]
        exact h
    · rename_i hge
      rw [List.sorted_cons]
      constructor
      · intro b hb
        rcases mem_insertMember hb with rfl | hb
        · omega
        · exact h.1 b hb
      · exact insertMember_sorted m h.2

theorem sortMembers_sorted :
    ∀ ms : List TaskGroupMemberWithTask,
    (sortMembers ms).Sorted (fun a b => a.sortOrder ≤ b.sortOrder)
  | [] => List.sorted_nil
  | m :: rest => insertMember_sorted m (sortMembers_sorted rest)

theorem sortMembers_length (ms : List TaskGroupMemberWithTask) :
    (sortMembers ms).length = ms.length :=
  (sortMembers_perm ms).length_eq

theorem lookup_none_of_not_mem_keys (k : String) :
    ∀ l : List (String × Nat), k ∉ l.map Prod.fst → List.lookup k l = none
  | [], _ => rfl
  | (a, v) :: rest, h => by
    have hka : ¬k = a := by
      intro he
      exact h (by simp [he])
    have hmem : k ∉ rest.map Prod.fst := by
      intro hm
      exact h (by simp [hm])
    simp [List.lookup_cons, beq_eq_false_iff_ne.mpr hka,
          lookup_none_of_not_mem_keys k rest hmem]

theorem lookup_filter_ne (k : String) :
    ∀ l : List (String × Nat),
    List.lookup k (l.filter (fun p => p.1 != k)) = none
  | [] => rfl
  | (a, v) :: rest => by
    by_cases hak : a = k
    · simp [List.filter_cons, hak, lookup_filter_ne k rest]
    · simp [List.filter_cons, bne_iff_ne.mpr hak, List.lookup_cons,
            beq_eq_false_iff_ne.mpr (Ne.symm hak), lookup_filter_ne k rest]

theorem lookup_append_singleton (k : String) (v : Nat) :
    ∀ l : List (String × Nat), List.lookup k l = none →
    List.lookup k (l ++ [(k, v)]) = some v
  | [], _ => by simp [List.lookup_cons]
  | (a, w) :: rest, h => by
    by_cases hka : k = a
    · simp [List.lookup_cons, beq_iff_eq.mpr hka] at h
    · simp only [List.lookup_cons, beq_eq_false_iff_ne.mpr hka] at h
      simp [List.cons_append, List.lookup_cons, beq_eq_false_iff_ne.mpr hka,
            lookup_append_singleton k v rest h]

theorem stepFailed_stop (ex : Executor) (g : TaskGroup) (hmode : g.failureMode = "stop")
    (m : TaskGroupMemberWithTask) : stepFailed ex g true m = true := by
  cases hen : m.task.enabled <;> simp [stepFailed, hen, hmode]

theorem resultsOf_stop_failed (ex : Executor) (g : TaskGroup)
    (hmode : g.failureMode = "stop") :
    ∀ ms : List TaskGroupMemberWithTask,
    resultsOf ex g true ms =
      ms.map (fun m => skippedResult m
        (if m.task.enabled then "Skipped due to previous task failure"
         else "Task is disabled"))
  | [] => rfl
  | m :: rest => by
    cases hen : m.task.enabled <;>
      simp [resultsOf, memberResult, hen, hmode, stepFailed_stop ex g hmode m,
            resultsOf_stop_failed ex g hmode rest]

theorem willExecute_stop_failed (g : TaskGroup) (hmode : g.failureMode = "stop")
    (m : TaskGroupMemberWithTask) : willExecute g true m = false := by
  cases hen : m.task.enabled <;> simp [willExecute, hen, hmode]

theorem invokedOf_stop_failed (ex : Executor) (g : TaskGroup)
    (hmode : g.failureMode = "stop") :
    ∀ ms : List TaskGroupMemberWithTask, invokedOf ex g true ms = []
  | [] => rfl
  | m :: rest => by
    simp [invokedOf, willExecute_stop_failed g hmode m, stepFailed_stop ex g hmode m,
          invokedOf_stop_failed ex g hmode rest]

theorem willExecute_continue (g : TaskGroup) (hmode : g.failureMode = "continue")
    (fl : Bool) (m : TaskGroupMemberWithTask) :
    willExecute g fl m = m.task.enabled := by
  have hneq : (("continue" : String) == "stop") = false := by decide
  cases hfl : fl <;> simp [willExecute, hmode, hneq]

theorem invokedOf_continue (ex : Executor) (g : TaskGroup)
    (hmode : g.failureMode = "continue") :
    ∀ (fl : Bool) (ms : List TaskGroupMemberWithTask),
    invokedOf ex g fl ms = (ms.filter (fun m => m.task.enabled)).map (fun m => m.task.id)
  | _, [] => rfl
  | fl, m :: rest => by
    cases hen : m.task.enabled <;>
      simp [invokedOf, willExecute_continue g hmode, hen, List.filter_cons,
            invokedOf_continue ex g hmode (stepFailed ex g fl m) rest]

theorem delaysOf_zero (ex : Executor) (g : TaskGroup) (hz : g.delayBetweenTasks = 0) :
    ∀ (fl : Bool) (ms : List TaskGroupMemberWithTask), delaysOf ex g fl ms = 0
  | _, [] => rfl
  | fl, m :: rest => by
    simp [delaysOf, hz, delaysOf_zero ex g hz (stepFailed ex g fl m) rest]

theorem isExecStatus_memberResult (ex : Executor) (g : TaskGroup) (fl : Bool)
    (m : TaskGroupMemberWithTask) :
    isExecStatus (memberResult ex g fl m) = willExecute g fl m := by
  cases hen : m.task.enabled <;> cases hfl : fl <;>
    cases hmode : g.failureMode == "stop" <;> cases hex : ex m.task <;>
      simp [isExecStatus, memberResult, willExecute, skippedResult, successResult,
            failedResult, hen, hfl, hmode, hex]

theorem delaysOf_eq_countP (ex : Executor) (g : TaskGroup)
    (hd : 0 < g.delayBetweenTasks) :
    ∀ (fl : Bool) (ms : List TaskGroupMemberWithTask),
    delaysOf ex g fl ms = ((resultsOf ex g fl ms).dropLast).countP isExecStatus
  | _, [] => rfl
  | fl, [m] => by
    simp [delaysOf, resultsOf]
  | fl, m :: m2 :: rest2 => by
    have hlen := resultsOf_length ex g (stepFailed ex g fl m) (m2 :: rest2)
    have hne : resultsOf ex g (stepFailed ex g fl m) (m2 :: rest2) ≠ [] := by
      intro hnil
      rw [hnil] at hlen
      simp at hlen
    have ih := delaysOf_eq_countP ex g hd (stepFailed ex g fl m) (m2 :: rest2)
    show (if willExecute g fl m ∧ (m2 :: rest2).isEmpty = false ∧ 0 < g.delayBetweenTasks
          then 1 else 0)
          + delaysOf ex g (stepFailed ex g fl m) (m2 :: rest2)
        = ((memberResult ex g fl m
              :: resultsOf ex g (stepFailed ex g fl m) (m2 :: rest2)).dropLast).countP
            isExecStatus
    rw [List.dropLast_cons_of_ne_nil hne, List.countP_cons, ih, isExecStatus_memberResult]
    cases hwe : willExecute g fl m <;> simp [hwe, hd, Nat.add_comm]

theorem executeGroup_eq_found (ex : Executor) (st : SystemState) (gid : String)
    (gw : TaskGroupWithMembers) (hg : findGroup gid st.groups = some gw) :
    executeGroup ex st gid =
      ({ st with
         executions := updateExecution st.nextExec (finalRecord ex st gid gw)
                         (st.executions ++ [runningRecord st gid gw]),
         nextExec := st.nextExec + 1,
         groups := updateGroupStatus gid (finalRecord ex st gid gw).status
                     (finalRecord ex st gid gw).errorMessage st.groups },
       .ok (finalRecord ex st gid gw)) := by
  unfold executeGroup
  rw [hg]
  rfl

theorem updateExecution_skip (n : Nat) (newRec : TaskGroupExecution) :
    ∀ execs : List TaskGroupExecution, (∀ r ∈ execs, r.id < n) →
    updateExecution n newRec execs = execs
  | [], _ => rfl
  | r :: rest, h => by
    have h1 : (r.id == n) = false :=
      beq_eq_false_iff_ne.mpr (Nat.ne_of_lt (h r (List.mem_cons_self r rest)))
    have ih := updateExecution_skip n newRec rest (fun q hq => h q (List.mem_cons_of_mem r hq))
    unfold updateExecution at ih ⊢
    rw [List.map_cons, ih, h1]
    simp

theorem updateExecution_append_fresh (n : Nat) (newRec oldRec : TaskGroupExecution)
    (execs : List TaskGroupExecution) (hwf : ∀ r ∈ execs, r.id < n)
    (hold : oldRec.id = n) :
    updateExecution n newRec (execs ++ [oldRec]) = execs ++ [newRec] := by
  have h1 := updateExecution_skip n newRec execs hwf
  unfold updateExecution at h1 ⊢
  rw [List.map_append, h1]
  simp [hold]

theorem lookup_none_iff_keys (k : String) :
    ∀ l : List (String × Nat), List.lookup k l = none ↔ k ∉ l.map Prod.fst
  | [] => by simp
  | (a, v) :: rest => by
    by_cases hka : k = a
    · subst hka
      simp [List.lookup_cons]
    · simp [List.lookup_cons, beq_eq_false_iff_ne.mpr hka, hka,
            lookup_none_iff_keys k rest]

theorem lookup_some_mem (k : String) (v : Nat) :
    ∀ l : List (String × Nat), List.lookup k l = some v → (k, v) ∈ l
  | [], h => by simp [List.lookup] at h
  | (a, w) :: rest, h => by
    by_cases hka : k = a
    · subst hka
      rw [List.lookup_cons] at h
      simp at h
      subst h
      exact List.mem_cons_self _ _
    · rw [List.lookup_cons] at h
      simp [beq_eq_false_iff_ne.mpr hka] at h
      exact List.mem_cons_of_mem _ (lookup_some_mem k v rest h)

theorem stopTimer_lookup_self (k : String) (reg : Registry) :
    List.lookup k (stopTimer k reg).live = none := by
  unfold stopTimer
  cases hl : List.lookup k reg.live with
  | none => exact hl
  | some t => exact lookup_filter_ne k reg.live

theorem stopTimer_nextTimer (k : String) (reg : Registry) :
    (stopTimer k reg).nextTimer = reg.nextTimer := by
  unfold stopTimer
  cases List.lookup k reg.live <;> rfl

theorem stopTimer_live_subset (k : String) (reg : Registry) :
    ∀ p ∈ (stopTimer k reg).live, p ∈ reg.live := by
  unfold stopTimer
  cases List.lookup k reg.live with
  | none => exact fun p hp => hp
  | some t => exact fun p hp => List.mem_of_mem_filter hp

theorem stopTimer_keys_sublist (k : String) (reg : Registry) :
    ((stopTimer k reg).live.map Prod.fst).Sublist (reg.live.map Prod.fst) := by
  unfold stopTimer
  cases List.lookup k reg.live with
  | none => exact List.Sublist.refl _
  | some t => exact (List.filter_sublist _).map _

theorem stopTimer_values_sublist (k : String) (reg : Registry) :
    ((stopTimer k reg).live.map Prod.snd).Sublist (reg.live.map Prod.snd) := by
  unfold stopTimer
  cases List.lookup k reg.live with
  | none => exact List.Sublist.refl _
  | some t => exact (List.filter_sublist _).map _

theorem RegWF_stopTimer (k : String) (reg : Registry) (h : RegWF reg) :
    RegWF (stopTimer k reg) := by
  obtain ⟨h1, h2, h3⟩ := h
  refine ⟨List.Nodup.sublist (stopTimer_keys_sublist k reg) h1,
          List.Nodup.sublist (stopTimer_values_sublist k reg) h2, ?_⟩
  intro p hp
  rw [stopTimer_nextTimer]
  exact h3 p (stopTimer_live_subset k reg p hp)

theorem scheduleGroup_valid (g : TaskGroup) (reg : Registry)
    (hv : cronValidate g.cronExpression = true) :
    scheduleGroup g reg =
      ({ stopTimer g.id reg with
         live := (stopTimer g.id reg).live ++ [(g.id, (stopTimer g.id reg).nextTimer)],
         nextTimer := (stopTimer g.id reg).nextTimer + 1 }, none) := by
  unfold scheduleGroup
  rw [if_neg (by simp [hv])]

theorem RegWF_scheduleGroup (g : TaskGroup) (reg : Registry) (h : RegWF reg) :
    RegWF (scheduleGroup g reg).1 := by
  by_cases hv : cronValidate g.cronExpression = false
  · unfold scheduleGroup
    simpa [hv] using h
  · rw [scheduleGroup_valid g reg (by revert hv; cases cronValidate g.cronExpression <;> simp)]
    obtain ⟨h1, h2, h3⟩ := RegWF_stopTimer g.id reg h
    have hnk : g.id ∉ (stopTimer g.id reg).live.map Prod.fst :=
      (lookup_none_iff_keys g.id _).mp (stopTimer_lookup_self g.id reg)
    have hnv : (stopTimer g.id reg).nextTimer ∉ (stopTimer g.id reg).live.map Prod.snd := by
      intro hmem
      obtain ⟨p, hp, hpe⟩ := List.mem_map.mp hmem
      have := h3 p hp
      omega
    refine ⟨?_, ?_, ?_⟩
    · simp only [List.map_append]
      rw [List.nodup_append]
      exact ⟨h1, List.nodup_singleton _, List.disjoint_singleton.mpr hnk⟩
    · simp only [List.map_append]
      rw [List.nodup_append]
      exact ⟨h2, List.nodup_singleton _, List.disjoint_singleton.mpr hnv⟩
    · intro p hp
      rw [List.mem_append] at hp
      rcases hp with hp | hp
      · have := h3 p hp
        simp only []
        omega
      · simp at hp
        subst hp
        simp

theorem runResults_eq (ex : Executor) (gw : TaskGroupWithMembers) :
    runResults ex gw = resultsOf ex gw.group false (sortMembers gw.taskMemberships) := by
  unfold runResults
  rw [runLoop_eq]
  simp [initLoopState]

theorem runResults_length (ex : Executor) (gw : TaskGroupWithMembers) :
    (runResults ex gw).length = gw.taskMemberships.length := by
  rw [runResults_eq, resultsOf_length, sortMembers_length]

theorem finalStatus_ne_running (c f s : Nat) : finalStatus c f s ≠ "running" := by
  unfold finalStatus
  split
  · decide
  · split <;> decide

theorem updateGroup_disable_reg (gid : String) (data : UpdateGroupData)
    (stu : SystemState) (gw : TaskGroupWithMembers)
    (hfound : findGroup gid stu.groups = some gw)
    (hdis : data.enabled = some false) (hnocron : data.cronExpression = none) :
    (updateGroup gid data stu).1.reg = stopTimer gid stu.reg := by
  unfold updateGroup
  rw [hnocron, hfound]
  simp [applyUpdate, hdis]

theorem deleteGroup_reg (gid : String) (std : SystemState) :
    (deleteGroup gid std).1.reg = stopTimer gid std.reg := by
  cases hf : findGroup gid std.groups <;> simp [deleteGroup, hf]

/-! ### Claim theorems -/

/-- Claim C5: executing a group id that does not exist in the store fails
fast with an error and changes nothing: `executeGroup` returns the
not-found error together with the input state unchanged, so no
`TaskGroupExecution` (not even a `running` one) is persisted and no other
state is touched. -/
theorem c5_not_found_fails_fast (ex : Executor) (st : SystemState) (gid : String)
    (hg : findGroup gid st.groups = none) :
    executeGroup ex st gid = (st, .error ("Task group " ++ gid ++ " not found")) := by
  unfold executeGroup
  rw [hg]

/-- Witness for C5 at a concrete missing id over the empty store. -/
theorem c5_witness :
    executeGroup exOk stEmpty "nope" = (stEmpty, .error "Task group nope not found") :=
  c5_not_found_fails_fast exOk stEmpty "nope" rfl

/-- Claim C3 (amended): a member whose task is disabled is recorded
`skipped` with reason "Task is disabled" (the source's exact string; the
claim's quoted "task disabled" does not match it), the executor is not
invoked for it, the run's failure flag is unchanged (so it never causes
later stop-mode skips), and the pushed row does not add to the failed
count. -/
theorem c3_disabled_member (ex : Executor) (g : TaskGroup) (st : LoopState)
    (m : TaskGroupMemberWithTask) (b : Bool) (hen : m.task.enabled = false) :
    processMember ex g st m b
      = { st with results := st.results ++ [skippedResult m "Task is disabled"] } ∧
    (skippedResult m "Task is disabled").status = TaskStatus.skipped ∧
    countFailed (st.results ++ [skippedResult m "Task is disabled"])
      = countFailed st.results := by
  refine ⟨?_, rfl, ?_⟩
  · unfold processMember
    rw [if_pos hen]
  · unfold countFailed
    rw [List.filter_append]
    simp [skippedResult]

/-- Witness for C3 on a concrete disabled member. -/
theorem c3_witness :
    processMember exOk gStop initLoopState (mkMember 1 (mkTask "d1" false)) false
      = { initLoopState with
          results := initLoopState.results
            ++ [skippedResult (mkMember 1 (mkTask "d1" false)) "Task is disabled"] } :=
  (c3_disabled_member exOk gStop initLoopState (mkMember 1 (mkTask "d1" false)) false rfl).1

/-- Counterexample for C3 as stated: the recorded reason string is
"Task is disabled", not "task disabled". -/
theorem c3_cex :
    ((processMember exOk gStop initLoopState (mkMember 1 (mkTask "d1" false)) false).results.map
      (fun r => r.error)) = [some "Task is disabled"] ∧
    ¬((some "Task is disabled" : Option String) = some "task disabled") :=
  ⟨rfl, by decide⟩

/-- Claim C1 (amended): the finalized status is `success` when no member
failed and none was skipped, `failed` when no member succeeded and at
least one did not succeed, and `partial` otherwise; consequently a
nonempty run in which every member was skipped finalizes as `failed`
(the claim's "partial" is wrong on such runs), and in particular never
as `success`. -/
theorem c1_final_status (ex : Executor) (st : SystemState) (gid : String)
    (gw : TaskGroupWithMembers) (rec : TaskGroupExecution)
    (hg : findGroup gid st.groups = some gw)
    (hok : (executeGroup ex st gid).2 = .ok rec) :
    (rec.tasksFailed = 0 ∧ rec.tasksSkipped = 0 → rec.status = "success") ∧
    (rec.tasksCompleted = 0 ∧ 0 < rec.tasksFailed + rec.tasksSkipped →
      rec.status = "failed") ∧
    (0 < rec.tasksCompleted ∧ 0 < rec.tasksFailed + rec.tasksSkipped →
      rec.status = "partial") ∧
    (gw.taskMemberships ≠ [] →
      (∀ r ∈ rec.taskResults, r.status = TaskStatus.skipped) →
      rec.status = "failed") := by
  rw [executeGroup_eq_found ex st gid gw hg] at hok
  have hrec := Except.ok.inj hok
  subst hrec
  simp only [finalRecord]
  refine ⟨?_, ?_, ?_, ?_⟩
  · intro h
    unfold finalStatus
    rw [if_pos ⟨h.1, h.2⟩]
  · intro h
    unfold finalStatus
    rw [if_neg (by omega), if_pos h.1]
  · intro h
    unfold finalStatus
    rw [if_neg (by omega), if_neg (by omega)]
  · intro hne hall
    have hc := countSuccess_of_all_skipped _ hall
    have hs := countSkipped_of_all_skipped _ hall
    have hlen := runResults_length ex gw
    have hpos : 0 < gw.taskMemberships.length := List.length_pos.mpr hne
    unfold finalStatus
    rw [if_neg (by omega), if_pos hc]

/-- Witness for C1 on the all-disabled group: the run finalizes as
`failed`. -/
theorem c1_witness :
    (finalRecord exOk stDisabled "gD"
      { group := gD, taskMemberships := [mkMember 1 (mkTask "d1" false)] }).status
      = "failed" :=
  (c1_final_status exOk stDisabled "gD"
    { group := gD, taskMemberships := [mkMember 1 (mkTask "d1" false)] }
    (finalRecord exOk stDisabled "gD"
      { group := gD, taskMemberships := [mkMember 1 (mkTask "d1" false)] })
    rfl rfl).2.2.2 (by decide) (by decide)

/-- Counterexample for C1 as stated: a run in which every member was
skipped (single disabled member) finalizes as `failed`, not `partial`. -/
theorem c1_cex :
    ((executeGroup exOk stDisabled "gD").2.toOption.map (fun r => r.status))
      = some "failed" ∧
    ¬(("failed" : String) = "partial") :=
  ⟨rfl, by decide⟩

/-- Claim C9: whenever `executeGroup` finalizes for an existing group, the
result list holds exactly one entry per membership, in ascending
`sortOrder` (the processed order is a sorted permutation of the stored
memberships and the result ids follow it), and the finalized counts
satisfy `tasksCompleted + tasksFailed + tasksSkipped = tasksTotal
= number of memberships`. -/
theorem c9_results_partition (ex : Executor) (st : SystemState) (gid : String)
    (gw : TaskGroupWithMembers) (rec : TaskGroupExecution)
    (hg : findGroup gid st.groups = some gw)
    (hok : (executeGroup ex st gid).2 = .ok rec) :
    rec.tasksTotal = gw.taskMemberships.length ∧
    rec.taskResults.length = rec.tasksTotal ∧
    rec.tasksCompleted + rec.tasksFailed + rec.tasksSkipped = rec.tasksTotal ∧
    rec.taskResults.map (fun r => r.taskId)
      = (sortMembers gw.taskMemberships).map (fun m => m.task.id) ∧
    (sortMembers gw.taskMemberships).Sorted (fun a b => a.sortOrder ≤ b.sortOrder) ∧
    (sortMembers gw.taskMemberships).Perm gw.taskMemberships := by
  rw [executeGroup_eq_found ex st gid gw hg] at hok
  have hrec := Except.ok.inj hok
  subst hrec
  simp only [finalRecord]
  refine ⟨?_, ?_, ?_, ?_, ?_, ?_⟩
  · trivial
  · exact runResults_length ex gw
  · rw [count_partition, runResults_length]
  · rw [runResults_eq, resultsOf_map_taskId]
  · exact sortMembers_sorted gw.taskMemberships
  · exact sortMembers_perm gw.taskMemberships

/-- Witness for C9 on the four-member group with a failing second member:
the counts partition the total. -/
theorem c9_witness :
    (finalRecord exFailT2 stStop4 "g1" gwStop4).tasksCompleted
      + (finalRecord exFailT2 stStop4 "g1" gwStop4).tasksFailed
      + (finalRecord exFailT2 stStop4 "g1" gwStop4).tasksSkipped
      = (finalRecord exFailT2 stStop4 "g1" gwStop4).tasksTotal :=
  (c9_results_partition exFailT2 stStop4 "g1" gwStop4
    (finalRecord exFailT2 stStop4 "g1" gwStop4) rfl rfl).2.2.1

/-- Claim C2 (amended): in `stop` mode, once the run's failure flag is
set, every later member is recorded `skipped` — with the source's exact
reason string "Skipped due to previous task failure" for enabled members
(the claim's quoted "skipped due to previous failure" does not match it)
and "Task is disabled" for disabled ones — and the executor is invoked
for none of them; in `continue` mode the executor is invoked for every
enabled member regardless of prior failures; with 4 enabled members in
`stop` mode and the member at position 2 failing, the recorded statuses
are success, failed, skipped, skipped, the final status is `partial`,
and the counts are 1 completed, 1 failed, 2 skipped. -/
theorem c2_failure_mode (ex : Executor) (g gc : TaskGroup) (st : LoopState)
    (ms : List TaskGroupMemberWithTask)
    (hstop : g.failureMode = "stop") (hfl : st.failed = true)
    (hcont : gc.failureMode = "continue") :
    (runLoop ex g st ms).invoked = st.invoked ∧
    (runLoop ex g st ms).results = st.results ++
      ms.map (fun m => skippedResult m
        (if m.task.enabled then "Skipped due to previous task failure"
         else "Task is disabled")) ∧
    (runLoop ex gc st ms).invoked = st.invoked ++
      (ms.filter (fun m => m.task.enabled)).map (fun m => m.task.id) ∧
    ((executeGroup exFailT2 stStop4 "g1").2.toOption.map
      (fun r => (r.taskResults.map (fun q => q.status), r.status,
                 r.tasksCompleted, r.tasksFailed, r.tasksSkipped)))
      = some ([TaskStatus.success, TaskStatus.failed, TaskStatus.skipped,
               TaskStatus.skipped], "partial", 1, 1, 2) := by
  refine ⟨?_, ?_, ?_, rfl⟩
  · rw [runLoop_eq]
    simp [hfl, invokedOf_stop_failed ex g hstop]
  · rw [runLoop_eq]
    simp [hfl, resultsOf_stop_failed ex g hstop]
  · rw [runLoop_eq]
    simp [invokedOf_continue ex gc hcont]

/-- Witness for C2: from a failed state in `stop` mode, no further
executor invocation happens over the four members. -/
theorem c2_witness :
    (runLoop exOk gStop lsFailed ms4).invoked = lsFailed.invoked :=
  (c2_failure_mode exOk gStop gCont lsFailed ms4 rfl rfl rfl).1

/-- Counterexample for C2 as stated: the recorded skip reason is
"Skipped due to previous task failure", not "skipped due to previous
failure". -/
theorem c2_cex :
    ((executeGroup exFailT2 stStop4 "g1").2.toOption.map
      (fun r => r.taskResults.map (fun q => q.error)))
      = some [none, some "boom", some "Skipped due to previous task failure",
              some "Skipped due to previous task failure"] ∧
    ¬(("Skipped due to previous task failure" : String)
        = "skipped due to previous failure") :=
  ⟨rfl, by decide⟩

/-- Claim C6 (amended): with a zero inter-task delay the loop never
suspends; with a positive delay it suspends exactly once after every
member for which the executor was invoked (recorded success or failed)
that is not in last position — members recorded `skipped` (the two
`continue` branches) incur no suspension, contrary to the claim's
"after each processed member" — and never after the final member; a run
of 3 enabled members with delay 5 performs exactly two suspensions. -/
theorem c6_delay_semantics (ex : Executor) (g : TaskGroup)
    (ms : List TaskGroupMemberWithTask) :
    (g.delayBetweenTasks = 0 → (runLoop ex g initLoopState ms).delays = 0) ∧
    (0 < g.delayBetweenTasks →
      (runLoop ex g initLoopState ms).delays
        = (((runLoop ex g initLoopState ms).results).dropLast).countP isExecStatus) ∧
    (runLoop exOk gDelay initLoopState ms3).delays = 2 := by
  refine ⟨?_, ?_, rfl⟩
  · intro hz
    rw [runLoop_eq]
    simp [initLoopState, delaysOf_zero ex g hz]
  · intro hd
    rw [runLoop_eq]
    simp [initLoopState, delaysOf_eq_countP ex g hd]

/-- Witness for C6 with a positive delay over a list starting with a
skipped member. -/
theorem c6_witness :
    (runLoop exOk gDelay initLoopState msSkipFirst).delays
      = (((runLoop exOk gDelay initLoopState msSkipFirst).results).dropLast).countP
          isExecStatus :=
  (c6_delay_semantics exOk gDelay msSkipFirst).2.1 (by decide)

/-- Counterexample for C6 as stated: with delay 5, a run of two members
whose first (non-last) member is processed and recorded `skipped`
performs zero suspensions, not the one suspension the claim requires
after each processed non-last member. -/
theorem c6_cex :
    0 < gDelay.delayBetweenTasks ∧
    (runLoop exOk gDelay initLoopState msSkipFirst).results.length = 2 ∧
    (runLoop exOk gDelay initLoopState msSkipFirst).delays = 0 ∧
    ¬((runLoop exOk gDelay initLoopState msSkipFirst).delays = 1) :=
  ⟨by decide, rfl, rfl, by decide⟩

/-- Claim C4: an executor error never aborts the loop nor escapes
`executeGroup`: for any executor behavior, a run on an existing group
returns a finalized record (`finalized`, status not `running`, one
result per membership) and the execution table gains exactly that one
record; a member whose executor call errors is recorded `failed` with
the error message and only sets the failure flag; and the results of any
prefix of the member list are a prefix of the results of the whole list,
so a later failure never retroactively changes an earlier member's
recorded result. -/
theorem c4_error_containment (ex : Executor) (st : SystemState) (gid : String)
    (gw : TaskGroupWithMembers) (g : TaskGroup) (lst : LoopState)
    (m : TaskGroupMemberWithTask) (e : String) (b : Bool)
    (l₁ l₂ : List TaskGroupMemberWithTask) (st0 : LoopState)
    (hg : findGroup gid st.groups = some gw) (hwf : ExecWF st)
    (hen : m.task.enabled = true)
    (hnoskip : (lst.failed && (g.failureMode == "stop")) = false)
    (herr : ex m.task = .error e) :
    (executeGroup ex st gid).2 = .ok (finalRecord ex st gid gw) ∧
    (executeGroup ex st gid).1.executions
      = st.executions ++ [finalRecord ex st gid gw] ∧
    (finalRecord ex st gid gw).finalized = true ∧
    (finalRecord ex st gid gw).status ≠ "running" ∧
    (finalRecord ex st gid gw).taskResults.length = gw.taskMemberships.length ∧
    (processMember ex g lst m b).results = lst.results ++ [failedResult m e] ∧
    (failedResult m e).error = some e ∧
    (processMember ex g lst m b).failed = true ∧
    ((runLoop ex g st0 (l₁ ++ l₂)).results).take
        ((runLoop ex g st0 l₁).results.length)
      = (runLoop ex g st0 l₁).results := by
  have hmr : memberResult ex g lst.failed m = failedResult m e := by
    unfold memberResult
    rw [if_neg (by simp [hen]), if_neg (by simp [hnoskip]), herr]
  have hstep : stepFailed ex g lst.failed m = true := by
    unfold stepFailed
    rw [if_neg (by simp [hen]), if_neg (by simp [hnoskip]), herr]
  refine ⟨?_, ?_, rfl, ?_, runResults_length ex gw, ?_, rfl, ?_, ?_⟩
  · rw [executeGroup_eq_found ex st gid gw hg]
  · rw [executeGroup_eq_found ex st gid gw hg]
    exact updateExecution_append_fresh st.nextExec (finalRecord ex st gid gw)
      (runningRecord st gid gw) st.executions hwf rfl
  · exact finalStatus_ne_running _ _ _
  · rw [processMember_eq]
    simp [hmr]
  · rw [processMember_eq]
    simp [hstep]
  · rw [runLoop_eq, runLoop_eq, resultsOf_append, ← List.append_assoc]
    exact List.take_left _ _

/-- Witness for C4 on the four-member run whose second member errors: the
execution table gains exactly the one finalized record. -/
theorem c4_witness :
    (executeGroup exFailT2 stStop4 "g1").1.executions
      = stStop4.executions ++ [finalRecord exFailT2 stStop4 "g1" gwStop4] :=
  (c4_error_containment exFailT2 stStop4 "g1" gwStop4 gStop initLoopState
    (mkMember 2 (mkTask "t2" true)) "boom" false ms4 [] initLoopState rfl
    (by intro r hr; simp [stStop4] at hr) rfl rfl rfl).2.1

/-- Claim C7: an invalid schedule expression is rejected with no partial
state created: `createGroup` throws and leaves the state untouched (no
group persisted, no timer armed), `scheduleGroup` reports the error and
leaves the registry untouched, and `updateGroup` with a present
non-empty invalid expression throws and leaves the state untouched. -/
theorem c7_invalid_cron_rejected (data : CreateGroupData) (g : TaskGroup)
    (udata : UpdateGroupData) (st stu : SystemState) (reg : Registry) (gid : String)
    (hbadc : cronValidate data.cronExpression = false)
    (hbadg : cronValidate g.cronExpression = false)
    (hbadu : udata.cronExpression = some data.cronExpression)
    (hnempty : data.cronExpression ≠ "") :
    createGroup data st
      = (st, .error ("Invalid cron expression: " ++ data.cronExpression)) ∧
    scheduleGroup g reg
      = (reg, some ("Invalid cron expression for task group " ++ g.name ++ ": "
          ++ g.cronExpression)) ∧
    updateGroup gid udata stu
      = (stu, .error ("Invalid cron expression: " ++ data.cronExpression)) := by
  refine ⟨?_, ?_, ?_⟩
  · unfold createGroup
    rw [if_pos hbadc]
  · unfold scheduleGroup
    rw [if_pos hbadg]
  · unfold updateGroup
    rw [hbadu]
    simp [hbadc, bne_iff_ne.mpr hnempty]

/-- Witness for C7: creating a group with the malformed expression
"not a cron" over the empty state throws and changes nothing. -/
theorem c7_witness :
    createGroup dataBadCron stEmpty
      = (stEmpty, .error ("Invalid cron expression: " ++ dataBadCron.cronExpression)) :=
  (c7_invalid_cron_rejected dataBadCron gBadCron updBadCron stEmpty stEmpty
    { live := [], stopped := [], nextTimer := 0 } "gX"
    (by decide) (by decide) rfl (by decide)).1

/-- Claim C8: the registry holds at most one live timer per group id
(`RegWF`, whose first component is key uniqueness) and this is preserved
by `scheduleGroup`, `updateGroup`, `deleteGroup` and `cleanup`;
re-registering an id that already holds a live timer first stops that
timer and removes its entry, then arms a fresh one; disabling a group
via `updateGroup` and deleting it via `deleteGroup` leave it with no
live timer; `cleanup` leaves no live timer at all. -/
theorem c8_one_timer_per_id (g : TaskGroup) (reg : Registry)
    (stu std : SystemState) (gid : String) (data : UpdateGroupData)
    (gw : TaskGroupWithMembers) (t : Nat)
    (hwf : RegWF reg) (hwfu : RegWF stu.reg) (hwfd : RegWF std.reg)
    (hfound : findGroup gid stu.groups = some gw)
    (hdis : data.enabled = some false) (hnocron : data.cronExpression = none)
    (hlook : List.lookup g.id reg.live = some t)
    (hv : cronValidate g.cronExpression = true) :
    RegWF (scheduleGroup g reg).1 ∧
    t ∈ (scheduleGroup g reg).1.stopped ∧
    List.lookup g.id (scheduleGroup g reg).1.live = some reg.nextTimer ∧
    (g.id, t) ∉ (scheduleGroup g reg).1.live ∧
    List.lookup gid (updateGroup gid data stu).1.reg.live = none ∧
    RegWF (updateGroup gid data stu).1.reg ∧
    List.lookup gid (deleteGroup gid std).1.reg.live = none ∧
    RegWF (deleteGroup gid std).1.reg ∧
    (cleanup reg).live = [] ∧ RegWF (cleanup reg) := by
  have ht : t < reg.nextTimer := hwf.2.2 _ (lookup_some_mem g.id t reg.live hlook)
  refine ⟨RegWF_scheduleGroup g reg hwf, ?_, ?_, ?_, ?_, ?_, ?_, ?_, rfl, ?_⟩
  · rw [scheduleGroup_valid g reg hv]
    show t ∈ (stopTimer g.id reg).stopped
    unfold stopTimer
    rw [hlook]
    simp
  · rw [scheduleGroup_valid g reg hv]
    show List.lookup g.id ((stopTimer g.id reg).live
      ++ [(g.id, (stopTimer g.id reg).nextTimer)]) = some reg.nextTimer
    rw [lookup_append_singleton g.id _ _ (stopTimer_lookup_self g.id reg),
        stopTimer_nextTimer]
  · rw [scheduleGroup_valid g reg hv]
    intro hmem
    simp only [List.mem_append] at hmem
    rcases hmem with hmem | hmem
    · have hnk := (lookup_none_iff_keys g.id _).mp (stopTimer_lookup_self g.id reg)
      exact hnk (List.mem_map.mpr ⟨(g.id, t), hmem, rfl⟩)
    · simp only [List.mem_singleton, Prod.mk.injEq] at hmem
      have := hmem.2
      rw [stopTimer_nextTimer] at this
      omega
  · rw [updateGroup_disable_reg gid data stu gw hfound hdis hnocron]
    exact stopTimer_lookup_self gid stu.reg
  · rw [updateGroup_disable_reg gid data stu gw hfound hdis hnocron]
    exact RegWF_stopTimer gid stu.reg hwfu
  · rw [deleteGroup_reg gid std]
    exact stopTimer_lookup_self gid std.reg
  · rw [deleteGroup_reg gid std]
    exact RegWF_stopTimer gid std.reg hwfd
  · refine ⟨?_, ?_, ?_⟩
    · simp [cleanup]
    · simp [cleanup]
    · intro p hp
      simp [cleanup] at hp

/-- Witness for C8: re-registering `g1`, whose timer 0 is live, arms the
fresh timer 1. -/
theorem c8_witness :
    List.lookup "g1" (scheduleGroup gStop reg1).1.live = some reg1.nextTimer :=
  (c8_one_timer_per_id gStop reg1 stRegistered stRegistered "g1" updDisable
    gwStop4 0 ⟨by decide, by decide, by decide⟩ ⟨by decide, by decide, by decide⟩
    ⟨by decide, by decide, by decide⟩ rfl rfl rfl rfl (by decide)).2.2.1

/-- Claim C10: with a valid expression, `createGroup` returns the group
with the defaults applied — `failureMode` is `stop` when omitted,
`delayBetweenTasks` is `0` when omitted, `enabled` is `true` unless the
caller passes exactly `false` — and a timer for the new group id is
armed immediately if and only if the resulting group is enabled. -/
theorem c10_create_defaults (data : CreateGroupData) (st : SystemState)
    (hval : cronValidate data.cronExpression = true)
    (hfresh : freshGroupId st ∉ st.reg.live.map Prod.fst) :
    (createGroup data st).2 = .ok (createdGroup data st) ∧
    (createdGroup data st).failureMode = data.failureMode.getD "stop" ∧
    (data.failureMode = none → (createdGroup data st).failureMode = "stop") ∧
    (createdGroup data st).delayBetweenTasks = data.delayBetweenTasks.getD 0 ∧
    (data.delayBetweenTasks = none → (createdGroup data st).delayBetweenTasks = 0) ∧
    ((createdGroup data st).enabled = false ↔ data.enabled = some false) ∧
    ((List.lookup (createdGroup data st).id
        (createGroup data st).1.reg.live).isSome = true
      ↔ (createdGroup data st).enabled = true) := by
  refine ⟨?_, rfl, ?_, rfl, ?_, ?_, ?_⟩
  · unfold createGroup
    rw [if_neg (by simp [hval])]
  · intro h
    simp [createdGroup, h]
  · intro h
    simp [createdGroup, h]
  · simp only [createdGroup]
    cases hde : data.enabled with
    | none => decide
    | some b => cases b <;> decide
  · unfold createGroup
    rw [if_neg (by simp [hval])]
    cases hen : (createdGroup data st).enabled with
    | true =>
      have hlook2 : List.lookup (createdGroup data st).id
          ((stopTimer (createdGroup data st).id st.reg).live
            ++ [((createdGroup data st).id,
                 (stopTimer (createdGroup data st).id st.reg).nextTimer)])
          = some (stopTimer (createdGroup data st).id st.reg).nextTimer :=
        lookup_append_singleton _ _ _ (stopTimer_lookup_self _ _)
      simp [hen, scheduleGroup_valid (createdGroup data st) st.reg hval, hlook2]
    | false =>
      have hlook3 : List.lookup (createdGroup data st).id st.reg.live = none :=
        (lookup_none_iff_keys (freshGroupId st) st.reg.live).mpr hfresh
      simp [hen, hlook3]

/-- Witness for C10 on the all-defaults payload over the empty state: the
created group is enabled and its timer is armed. -/
theorem c10_witness :
    ((List.lookup (createdGroup dataDefaults stEmpty).id
        (createGroup dataDefaults stEmpty).1.reg.live).isSome = true
      ↔ (createdGroup dataDefaults stEmpty).enabled = true) :=
  (c10_create_defaults dataDefaults stEmpty (by decide) (by decide)).2.2.2.2.2.2

end HSM
